import Mathlib

/-!
Verification of the paginated pool-fetching pipeline of a DeFi frontend.

The repository has two variants of the `usePoolsQuery` composable:
* `src/src/composables/queries/usePoolsQuery.ts` — the legacy variant,
  building `GraphQLArgs` for an SDK fallback repository; embedded below in
  namespace `Legacy`.
* `src/unnamed/part_000` — the current variant, building `ApiArgs` for the
  Balancer API service; embedded below in namespace `Current`.

Machine integers of the source are modelled as `Nat`, JS numbers used as
arbitrary-precision decimals (via `bnum`/BigNumber) as `ℚ`, JS strings as
`String`, optional values as `Option`, and JS truthiness of numbers, strings
and booleans by explicit helper functions.  External constants of the
repository that are not part of the sample (`POOLS.BlockList`,
`POOLS.ExcludedPoolTypes`, `POOLS.IncludedPoolTypes`,
`POOLS.Pagination.PerPage`, the chain id, and the api-mapping helpers) are
passed as an explicit `Constants` record.
-/

namespace PoolsQuery

/-- JS `String.prototype.toLowerCase` (addresses are ASCII hex strings, for
which JS lower-casing is exactly character-wise ASCII lower-casing). -/
def toLowerCaseStr (s : String) : String := s.map Char.toLower

/-- JS `a || b` for an optional number `a` (both `undefined` and `0` are
falsy). -/
def jsOrNat (a : Option Nat) (b : Option Nat) : Option Nat :=
  match a with
  | some n => if n = 0 then b else some n
  | none => b

/-- JS truthiness of an optional number: defined and non-zero. -/
def natTruthy : Option Nat → Bool
  | some n => decide (n ≠ 0)
  | none => false

/-- JS `a || b` for an optional string `a` with a string default (both
`undefined` and the empty string are falsy). -/
def jsOrStr (a : Option String) (b : String) : String :=
  match a with
  | some s => if s = "" then b else s
  | none => b

/-- JS truthiness of an optional boolean. -/
def boolTruthy : Option Bool → Bool
  | some b => b
  | none => false

/-- One entry of a pool's `tokens` sequence (the fields the claims need). -/
structure PoolToken where
  address : String
  balance : ℚ
  deriving DecidableEq, Repr

/-- A pool record, restricted to the fields the claims are about.
`aprMax` models `pool.apr?.max` and `totalSwapVolume` models
`pool.totalSwapVolume` (both optional in the source types). -/
structure Pool where
  id : String
  address : String
  tokensList : List String
  tokens : List PoolToken
  aprMax : Option ℚ
  totalSwapVolume : Option ℚ
  totalLiquidity : ℚ
  deriving DecidableEq, Repr

/-- Repository-level constants and helpers the sample imports from modules
outside the sample (`@/constants/pools`, `@/lib/utils/api`,
`config.service`). -/
structure Constants where
  chainId : Nat
  excludedPoolTypes : List String
  includedPoolTypes : List String
  blockList : List String
  perPage : Nat
  mapNetworkToApiChain : Nat → Nat
  mapPoolTypeToApiType : String → String

end PoolsQuery

namespace PoolsQuery.Current

/-! Embedding of `src/unnamed/part_000` (the current `usePoolsQuery`). -/

/-- `PoolFilterOptions` (`@/types/pools`): the fields read by the sample. -/
structure PoolFilterOptions where
  tokens : Option (List String)
  poolIds : Option (List String)
  poolTypes : Option (List String)
  sortField : Option String
  pageSize : Option Nat
  first : Option Nat
  deriving DecidableEq, Repr

/-- `PoolsRepositoryFetchOptions` from the SDK: an optional page size and an
optional numeric skip cursor. -/
structure PoolsRepositoryFetchOptions where
  first : Option Nat
  skip : Option Nat
  deriving DecidableEq, Repr

inductive GqlPoolOrderBy
  | Apr
  | Volume24h
  | TotalLiquidity
  deriving DecidableEq, Repr

inductive GqlPoolOrderDirection
  | Asc
  | Desc
  deriving DecidableEq, Repr

/-- The `where` clause of `ApiArgs`. -/
structure ApiWhere where
  chainIn : List Nat
  tokensIn : List String
  poolTypeIn : List String
  idNotIn : List String
  idIn : Option (List String)
  deriving DecidableEq, Repr

/-- `ApiArgs` (`@/services/balancer/api/entities/pools`). -/
structure ApiArgs where
  orderBy : GqlPoolOrderBy
  orderDirection : GqlPoolOrderDirection
  whereArg : ApiWhere
  first : Option Nat
  skip : Option Nat
  deriving DecidableEq, Repr

/-- `convertSortFieldToOrderBy` of `src/unnamed/part_000`. -/
def convertSortFieldToOrderBy (sortField : Option String) : GqlPoolOrderBy :=
  match sortField with
  | some "apr" => GqlPoolOrderBy.Apr
  | some "volume" => GqlPoolOrderBy.Volume24h
  | _ => GqlPoolOrderBy.TotalLiquidity

/-- `getQueryArgs` of `src/unnamed/part_000` (lines 75–111): builds the
backend `ApiArgs` from the filter options and the fetch options. -/
def getQueryArgs (C : Constants) (filterOptions : PoolFilterOptions)
    (options : PoolsRepositoryFetchOptions) : ApiArgs :=
  let poolIds := filterOptions.poolIds
  let poolTypes := filterOptions.poolTypes
  let hasPoolIdFilters : Bool := decide (0 < (poolIds.getD []).length)
  let hasPoolTypeFilters : Bool := decide (0 < (poolTypes.getD []).length)
  let tokenListFormatted := ((filterOptions.tokens).getD []).map toLowerCaseStr
  let orderBy := convertSortFieldToOrderBy filterOptions.sortField
  let base : ApiArgs :=
    { orderBy := orderBy
      orderDirection := GqlPoolOrderDirection.Desc
      whereArg :=
        { chainIn := [C.mapNetworkToApiChain C.chainId]
          tokensIn := tokenListFormatted
          poolTypeIn := C.includedPoolTypes.map C.mapPoolTypeToApiType
          idNotIn := C.blockList
          idIn := none }
      first := none
      skip := none }
  let a1 :=
    if hasPoolTypeFilters then
      { base with whereArg :=
          { base.whereArg with
              poolTypeIn := (poolTypes.getD []).map C.mapPoolTypeToApiType } }
    else base
  let a2 :=
    if hasPoolIdFilters then
      { a1 with whereArg := { a1.whereArg with idIn := poolIds } }
    else a1
  let a3 :=
    if natTruthy options.first then
      { a2 with first := jsOrNat filterOptions.first options.first }
    else a2
  let a4 :=
    if natTruthy options.skip then { a3 with skip := options.skip } else a3
  a4

/-- `getFetchOptions` of `src/unnamed/part_000` (lines 113–135): always sets
`first := pageSize || PerPage` (the token-filter guard in the source is
commented out) and sets `skip` only for a positive page param. -/
def getFetchOptions (C : Constants) (filterOptions : PoolFilterOptions)
    (pageParam : Nat) : PoolsRepositoryFetchOptions :=
  let first :=
    match filterOptions.pageSize with
    | some n => if n = 0 then C.perPage else n
    | none => C.perPage
  { first := some first
    skip := if 0 < pageParam then some pageParam else none }

/-- Sort key of the `apr` comparator: `pool?.apr?.max ?? 0`. -/
def aprKey (p : Pool) : ℚ := p.aprMax.getD 0

/-- Sort key of the `volume` comparator: `bnum(pool?.totalSwapVolume ?? 0)`.
BigNumber values are arbitrary-precision decimals, modelled as `ℚ`. -/
def volKey (p : Pool) : ℚ := p.totalSwapVolume.getD 0

/-- The order induced by the `apr` comparator
`(b.apr?.max ?? 0) - (a.apr?.max ?? 0)`: `a` may precede `b` when the
comparator is non-positive, i.e. the keys are descending. -/
def aprOrder (a b : Pool) : Prop := aprKey b ≤ aprKey a

instance : DecidableRel aprOrder := fun a b =>
  inferInstanceAs (Decidable (aprKey b ≤ aprKey a))

instance : IsTotal Pool aprOrder :=
  ⟨fun a b => le_total (aprKey b) (aprKey a)⟩

instance : IsTrans Pool aprOrder :=
  ⟨fun _ _ _ hab hbc => le_trans hbc hab⟩

/-- The order induced by the `volume` comparator
`bnum(b.totalSwapVolume ?? 0).minus(bnum(a.totalSwapVolume ?? 0)).toNumber()`:
the sign of the exact decimal difference, so `a` may precede `b` when
`volKey b ≤ volKey a`, i.e. the volumes are descending. -/
def volumeOrder (a b : Pool) : Prop := volKey b ≤ volKey a

instance : DecidableRel volumeOrder := fun a b =>
  inferInstanceAs (Decidable (volKey b ≤ volKey a))

instance : IsTotal Pool volumeOrder :=
  ⟨fun a b => le_total (volKey b) (volKey a)⟩

instance : IsTrans Pool volumeOrder :=
  ⟨fun _ _ _ hab hbc => le_trans hbc hab⟩

/-- `customSort` of `src/unnamed/part_000` (lines 137–157).  JS
`Array.prototype.sort` with a comparator is a stable sort placing `a` before
`b` when the comparator is non-positive; it is modelled by the stable
`List.insertionSort` over the comparator-induced orders above.  BigNumber
(`bnum`) arithmetic is exact decimal arithmetic, modelled as `ℚ`. -/
def customSort (filterOptions : PoolFilterOptions) (pools : List Pool) :
    List Pool :=
  let poolsSortField := jsOrStr filterOptions.sortField "totalLiquidity"
  if poolsSortField = "totalLiquidity" then pools
  else if poolsSortField = "apr" then pools.insertionSort aprOrder
  else if poolsSortField = "volume" then pools.insertionSort volumeOrder
  else pools

/-- The response shape of the current `queryFn`: the fetched pools and the
cursor for the next page. -/
structure PoolsQueryResponse where
  pools : List Pool
  skip : Option Nat
  deriving DecidableEq, Repr

/-- `queryFn` of `src/unnamed/part_000` (lines 180–201), with its effects made
explicit: `fetchResult` is the outcome of `poolsRepository.fetch(fetchOptions)`
and `savedPools` is `poolsStoreService.pools.value` at the time of the catch.
Returns `skip = (fetchOptions.first || 0) + (fetchOptions.skip || 0)` on both
the success path and the cache-fallback path; rethrows the error when the
store is empty. -/
def queryFn (C : Constants) (filterOptions : PoolFilterOptions)
    (isBalancerApiDefined : Bool) (fetchResult : Except String (List Pool))
    (savedPools : List Pool) (pageParam : Nat) :
    Except String PoolsQueryResponse :=
  let fetchOptions := getFetchOptions C filterOptions pageParam
  let skip := fetchOptions.first.getD 0 + fetchOptions.skip.getD 0
  match fetchResult with
  | Except.ok fetched =>
    let pools :=
      if !isBalancerApiDefined then customSort filterOptions fetched
      else fetched
    Except.ok { pools := pools, skip := some skip }
  | Except.error e =>
    if 0 < savedPools.length then
      Except.ok { pools := savedPools, skip := some skip }
    else Except.error e

/-- `getNextPageParam` of `src/unnamed/part_000` (line 204):
`lastPage.skip || 0`. -/
def getNextPageParam (lastPage : PoolsQueryResponse) : Nat :=
  lastPage.skip.getD 0

/-- The observable state of one paginated query: the page param the framework
will use for the next fetch (`none` before any page was fetched) and the
record accumulator `poolsStoreService.pools`. -/
structure QueryState where
  cursor : Option Nat
  store : List Pool
  deriving DecidableEq, Repr

/-- The state before any page is fetched: cursor `none`, empty store. -/
def initState : QueryState := { cursor := none, store := [] }

/-- One "fetch next page" step: run `queryFn` at the current cursor; on a
successful fetch `poolsStoreService.addPools(pools)` appends the page to the
store and the framework records the response's next-page param; on the
cache-fallback path the store is left as is; a rethrown error leaves the
state unchanged. -/
def fetchNext (C : Constants) (filterOptions : PoolFilterOptions)
    (isBalancerApiDefined : Bool) (fetchResult : Except String (List Pool))
    (s : QueryState) : QueryState :=
  let pageParam := s.cursor.getD 0
  match queryFn C filterOptions isBalancerApiDefined fetchResult
      s.store pageParam with
  | Except.ok resp =>
    let newStore :=
      match fetchResult with
      | Except.ok _ => s.store ++ resp.pools
      | Except.error _ => s.store
    { cursor := some (getNextPageParam resp), store := newStore }
  | Except.error _ => s

/-- The `watch(filterOptions)` handler of `src/unnamed/part_000`
(lines 163–170) combined with the framework's refetch-from-start: the store
is emptied via `poolsStoreService.setPools([])` and the query restarts from
the default page param, i.e. cursor `none`.  The restart-from-none part is
modelled from the spec: the infinite-query framework (external to the
sample) begins a fresh query at the default page param when the query key
changes. -/
def restart (_s : QueryState) : QueryState := { cursor := none, store := [] }

end PoolsQuery.Current

namespace PoolsQuery.Legacy

/-! Embedding of `src/src/composables/queries/usePoolsQuery.ts` (the legacy
`usePoolsQuery` over the `@balancer-labs/sdk` repositories). -/

/-- The SDK `Op` combinators used by the sample. -/
inductive Op
  | In (xs : List String)
  | NotIn (xs : List String)
  | Contains (xs : List String)
  | Equals (xs : List String)
  | GreaterThan (q : ℚ)
  deriving DecidableEq, Repr

/-- The list payload of an `Op` (the operand the operator filters by). -/
def Op.payload : Op → List String
  | Op.In xs => xs
  | Op.NotIn xs => xs
  | Op.Contains xs => xs
  | Op.Equals xs => xs
  | Op.GreaterThan _ => []

/-- The `where` clause of the legacy `GraphQLArgs` (`address` is only present
when a pool-address allow-list is given). -/
structure GqlWhere where
  tokensList : Op
  poolType : Op
  totalShares : Op
  id : Op
  address : Option Op
  deriving DecidableEq, Repr

/-- The legacy `GraphQLArgs` built by `getQueryArgs` (`first` is optional
because the builder deletes it for token-filtered queries; `skip` is the
opaque string page param). -/
structure GraphQLArgs where
  chainId : Nat
  first : Option Nat
  orderBy : String
  orderDirection : String
  whereArg : GqlWhere
  skip : Option String
  deriving DecidableEq, Repr

/-- The legacy `FilterOptions` (lines 31–36). -/
structure FilterOptions where
  poolIds : Option (List String)
  poolAddresses : Option (List String)
  isExactTokensList : Option Bool
  pageSize : Option Nat
  deriving DecidableEq, Repr

/-- `filterOptions?.poolIds?.value` with optional chaining collapsed. -/
def optPoolIds (filterOptions : Option FilterOptions) : List String :=
  ((filterOptions.bind (fun fo => fo.poolIds)).getD [])

/-- `filterOptions?.poolAddresses?.value` with optional chaining collapsed. -/
def optPoolAddresses (filterOptions : Option FilterOptions) : List String :=
  ((filterOptions.bind (fun fo => fo.poolAddresses)).getD [])

/-- `getQueryArgs` of the legacy file (lines 115–149): hard-codes
`first: 10`, lower-cases the token list, applies the block list to `id`,
overwrites `id` with the allow-list when non-empty, and deletes `first`
whenever the token list is non-empty.  `filterOptions.pageSize` is never
read. -/
def getQueryArgs (C : Constants) (tokenList : List String)
    (filterOptions : Option FilterOptions) (pageParam : String) :
    GraphQLArgs :=
  let tokensListFilterOperation : List String → Op :=
    if boolTruthy (filterOptions.bind (fun fo => fo.isExactTokensList)) then
      Op.Equals
    else Op.Contains
  let tokenListFormatted := tokenList.map toLowerCaseStr
  let base : GraphQLArgs :=
    { chainId := C.chainId
      first := some 10
      orderBy := "totalLiquidity"
      orderDirection := "desc"
      whereArg :=
        { tokensList := tokensListFilterOperation tokenListFormatted
          poolType := Op.NotIn C.excludedPoolTypes
          totalShares := Op.GreaterThan (1 / 100)
          id := Op.NotIn C.blockList
          address := none }
      skip := none }
  let a1 :=
    if pageParam ≠ "" then { base with skip := some pageParam } else base
  let a2 :=
    if 0 < (optPoolIds filterOptions).length then
      { a1 with whereArg :=
          { a1.whereArg with id := Op.In (optPoolIds filterOptions) } }
    else a1
  let a3 :=
    if 0 < (optPoolAddresses filterOptions).length then
      { a2 with whereArg :=
          { a2.whereArg with
              address := some (Op.In (optPoolAddresses filterOptions)) } }
    else a2
  let a4 := if 0 < tokenList.length then { a3 with first := none } else a3
  a4

/-- One repository adapter of the fallback chain, observed at one fetch: the
outcome its `fetch` would return for the given query, and the value of its
read-only `skip` cursor after that fetch. -/
structure Adapter where
  fetchResult : Except String (List Pool)
  skip : Option String
  deriving Repr

/-- Modelled from the spec: `PoolsFallbackRepository.fetch` of the external
`@balancer-labs/sdk` (constructed in `initializePoolsRepository`, legacy file
lines 64–72, but not itself part of the sample).  It attempts the adapters
strictly in order; the first adapter that returns successfully provides the
response, and that adapter becomes `currentProvider`, whose `skip` cursor the
legacy `queryFn` exposes; if an adapter fails the next is tried; if all fail
an aggregate failure carrying every adapter's error is raised. -/
def fallbackFetch : List Adapter → Except (List String) (List Pool × Option String)
  | [] => Except.error []
  | a :: rest =>
    match a.fetchResult with
    | Except.ok pools => Except.ok (pools, a.skip)
    | Except.error e =>
      match fallbackFetch rest with
      | Except.ok r => Except.ok r
      | Except.error es => Except.error (e :: es)

/-- The legacy `PoolsQueryResponse` (lines 25–29), without the constant
`enabled` flag. -/
structure LegacyResponse where
  pools : List Pool
  skip : Option String
  deriving DecidableEq, Repr

/-- The `skip` computation of the legacy `queryFn` (lines 234–236):
`currentProvider?.skip ? currentProvider.skip.toString() : undefined` — a
falsy provider cursor (absent or empty string) yields `undefined`. -/
def queryFnSkip (providerSkip : Option String) : Option String :=
  match providerSkip with
  | some s => if s = "" then none else some s
  | none => none

/-- The legacy `queryFn` (lines 211–243) over the fallback repository: on
success, pairs the fetched pools with the current provider's cursor; a
coordinator failure is propagated. -/
def queryFn (chain : List Adapter) : Except (List String) LegacyResponse :=
  match fallbackFetch chain with
  | Except.ok (pools, providerSkip) =>
    Except.ok { pools := pools, skip := queryFnSkip providerSkip }
  | Except.error es => Except.error es

/-- `getNextPageParam` of the legacy file (line 247): `lastPage.skip`. -/
def getNextPageParam (lastPage : LegacyResponse) : Option String :=
  lastPage.skip

/-- The two states of the pagination controller: `HasMore` holds the page
param for the next fetch (`none` before the first page), `Exhausted` means
no further page is requested. -/
inductive PageState
  | HasMore (cursor : Option String)
  | Exhausted
  deriving DecidableEq, Repr

/-- The controller's initial state: `HasMore` with cursor `none` (first page,
default page param). -/
def initialPageState : PageState := PageState.HasMore none

/-- Modelled from the spec: the infinite-query pagination controller of the
external query framework (not part of the sample).  After each successful
page fetch it evaluates the code's `getNextPageParam` on the response; an
undefined result means no further page is requested (`Exhausted`), otherwise
the controller stays in `HasMore` with the returned page param. -/
def controllerStep (s : PageState) (lastPage : LegacyResponse) : PageState :=
  match s with
  | PageState.Exhausted => PageState.Exhausted
  | PageState.HasMore _ =>
    match getNextPageParam lastPage with
    | none => PageState.Exhausted
    | some c => PageState.HasMore (some c)

end PoolsQuery.Legacy

namespace PoolsQuery.Decorator

/-! The record decorator applied by the legacy subgraph adapter
(`initializeDecoratedSubgraphRepository`, legacy file lines 90–113).  The
decorator itself (`@/services/pool/decorators/pool.decorator`) is not part of
the sample, so it is modelled from the spec. -/

/-- A liquidity gauge as consumed by the decorator. -/
structure Gauge where
  id : String
  poolId : String
  rewardRate : ℚ
  deriving DecidableEq, Repr

/-- A price table: address to price in the display currency. -/
abbrev PriceTable : Type := List (String × ℚ)

/-- Token metadata: address to symbol. -/
abbrev TokenMeta : Type := List (String × String)

/-- Price lookup; an address absent from the table degrades to price 0. -/
def priceOf (prices : PriceTable) (addr : String) : ℚ :=
  match List.find? (fun kv => kv.1 = addr) prices with
  | some kv => kv.2
  | none => 0

/-- Modelled from the spec: `PoolDecorator.decorate` (the
`@/services/pool/decorators/pool.decorator` module, absent from the sample).
A pure function of the raw records, gauge list, price table, display
currency and token metadata: each record's currency-denominated
`totalLiquidity` is recomputed as the sum over its tokens of balance ×
price, and its `apr` is derived from the matching gauge's reward rate;
absent auxiliary inputs (a missing price, no matching gauge) degrade the
individual derived field to zero/omitted instead of failing the batch. -/
def decorate (pools : List Pool) (gauges : List Gauge) (prices : PriceTable)
    (_currency : String) (_tokenMeta : TokenMeta) : List Pool :=
  pools.map fun p =>
    { p with
      totalLiquidity :=
        p.tokens.foldl (fun acc t => acc + t.balance * priceOf prices t.address) 0
      aprMax :=
        (List.find? (fun g => g.poolId = p.id) gauges).map
          (fun g => g.rewardRate) }

end PoolsQuery.Decorator

namespace PoolsQuery

/-! Concrete fixtures for witnesses and counterexamples. -/

/-- A concrete instantiation of the external constants. -/
def testConstants : Constants :=
  { chainId := 1
    excludedPoolTypes := ["Element"]
    includedPoolTypes := ["Weighted", "Stable"]
    blockList := ["0xbad"]
    perPage := 10
    mapNetworkToApiChain := fun n => n
    mapPoolTypeToApiType := fun s => s }

/-- A pool record with the given id and total swap volume. -/
def mkPool (id : String) (vol : ℚ) : Pool :=
  { id := id
    address := id
    tokensList := []
    tokens := []
    aprMax := none
    totalSwapVolume := some vol
    totalLiquidity := 0 }

/-- Filter options with every field unset. -/
def foNone : Current.PoolFilterOptions :=
  { tokens := none
    poolIds := none
    poolTypes := none
    sortField := none
    pageSize := none
    first := none }

end PoolsQuery

namespace PoolsQuery

/-- **C10.** For every filter input, both query-argument builders set the
order direction of the built backend arguments to descending; no filter
state, sort-field choice or option can produce ascending order, even though
`GqlPoolOrderDirection` also admits `Asc`. -/
theorem c10_order_direction_always_desc (C : Constants)
    (fo : Current.PoolFilterOptions) (opts : Current.PoolsRepositoryFetchOptions)
    (tl : List String) (lfo : Option Legacy.FilterOptions) (pp : String) :
    (Current.getQueryArgs C fo opts).orderDirection =
      Current.GqlPoolOrderDirection.Desc ∧
    (Legacy.getQueryArgs C tl lfo pp).orderDirection = "desc" := by
  constructor
  · simp only [Current.getQueryArgs]
    split_ifs <;> rfl
  · simp only [Legacy.getQueryArgs]
    split_ifs <;> rfl

/-- **C8.** For every input token list, the token filter of the built backend
arguments is exactly the input list with every address lower-cased, in both
builders (in the legacy builder, the operand of the `Equals`/`Contains`
operator applied to `tokensList`): every token address in the built filter is
the lower-cased form of the corresponding input address. -/
theorem c8_token_addresses_lowercased (C : Constants)
    (fo : Current.PoolFilterOptions) (opts : Current.PoolsRepositoryFetchOptions)
    (tl : List String) (lfo : Option Legacy.FilterOptions) (pp : String) :
    (Current.getQueryArgs C fo opts).whereArg.tokensIn =
      (fo.tokens.getD []).map toLowerCaseStr ∧
    Legacy.Op.payload (Legacy.getQueryArgs C tl lfo pp).whereArg.tokensList =
      tl.map toLowerCaseStr := by
  constructor
  · simp only [Current.getQueryArgs]
    split_ifs <;> rfl
  · simp only [Legacy.getQueryArgs]
    split_ifs <;> rfl

/-- Current filter options requesting the token `0xAAA` with page size 10
(the spec's own scenario input). -/
def foTokens10 : Current.PoolFilterOptions :=
  { foNone with tokens := some ["0xAAA"], pageSize := some 10 }

/-- **C1.** Page-size limit versus token filter, evaluated on both builders.
In the legacy builder the claim holds: a non-empty token list deletes the
`first` field, and an empty token list keeps `first: 10`.  In the current
builder (`src/unnamed/part_000`) the claim fails: `getFetchOptions` sets
`first` unconditionally (its token-filter guard is commented out, against its
own comment), so for the token-filtered input `{tokens: ["0xAAA"],
pageSize: 10}` the built backend arguments still carry `first = 10`. -/
theorem c1_page_limit_token_filter_evaluation :
    (Legacy.getQueryArgs testConstants ["0xAAA"] none "").first = none ∧
    (Legacy.getQueryArgs testConstants [] none "").first = some 10 ∧
    (Current.getFetchOptions testConstants foTokens10 0).first = some 10 ∧
    (Current.getQueryArgs testConstants foTokens10
        (Current.getFetchOptions testConstants foTokens10 0)).first =
      some 10 := by
  refine ⟨rfl, rfl, rfl, rfl⟩

/-- Current filter options with a pool-id allow-list. -/
def foPoolIds : Current.PoolFilterOptions :=
  { foNone with poolIds := some ["0xp1"] }

/-- **C6, counterexample.** In the current builder, with the pool-id
allow-list `["0xp1"]` and the block list `["0xbad"]`, the built arguments
carry both `idIn = ["0xp1"]` and `idNotIn = ["0xbad"]` at the same time: the
block-list exclusion stays in effect next to the allow-list, refuting the
claimed mutual exclusivity. -/
theorem c6_counterexample :
    (Current.getQueryArgs testConstants foPoolIds
        { first := none, skip := none }).whereArg.idIn = some ["0xp1"] ∧
    (Current.getQueryArgs testConstants foPoolIds
        { first := none, skip := none }).whereArg.idNotIn = ["0xbad"] := by
  refine ⟨rfl, rfl⟩

/-- **C6, amended.** When the pool-id allow-list is non-empty, the legacy
builder overwrites the id field with the allow-list, so the block-list
exclusion on `id` is no longer in effect there; the current builder instead
sets `idIn` to the allow-list while keeping the block list in `idNotIn`, so
in its built arguments both filters are simultaneously in effect. -/
theorem c6_allow_list_vs_block_list (C : Constants)
    (fo : Current.PoolFilterOptions) (opts : Current.PoolsRepositoryFetchOptions)
    (ids : List String) (hids : fo.poolIds = some ids) (hne : ids ≠ [])
    (tl : List String) (lfo : Legacy.FilterOptions)
    (hl : lfo.poolIds = some ids) (pp : String) :
    (Legacy.getQueryArgs C tl (some lfo) pp).whereArg.id = Legacy.Op.In ids ∧
    (Current.getQueryArgs C fo opts).whereArg.idIn = some ids ∧
    (Current.getQueryArgs C fo opts).whereArg.idNotIn = C.blockList := by
  have hlen : 0 < ids.length := List.length_pos.mpr hne
  refine ⟨?_, ?_, ?_⟩
  · simp only [Legacy.getQueryArgs, Legacy.optPoolIds, Legacy.optPoolAddresses,
      Option.bind_some, hl, Option.getD_some]
    split_ifs <;> simp_all
  · simp only [Current.getQueryArgs, hids, Option.getD_some]
    split_ifs <;> simp_all
  · simp only [Current.getQueryArgs, hids, Option.getD_some]
    split_ifs <;> simp_all

/-- **C6, witness.** The amended statement at the concrete constants and the
allow-list `["0xp1"]`. -/
theorem c6_allow_list_vs_block_list_witness :
    (Legacy.getQueryArgs testConstants [] (some
        { poolIds := some ["0xp1"], poolAddresses := none,
          isExactTokensList := none, pageSize := none }) "").whereArg.id =
      Legacy.Op.In ["0xp1"] ∧
    (Current.getQueryArgs testConstants foPoolIds
        { first := none, skip := none }).whereArg.idIn = some ["0xp1"] ∧
    (Current.getQueryArgs testConstants foPoolIds
        { first := none, skip := none }).whereArg.idNotIn =
      testConstants.blockList :=
  c6_allow_list_vs_block_list testConstants foPoolIds
    { first := none, skip := none } ["0xp1"] rfl (by decide) []
    { poolIds := some ["0xp1"], poolAddresses := none,
      isExactTokensList := none, pageSize := none } rfl ""

/-- A cached pool record. -/
def cachedPool : Pool := mkPool "0xcache" 0

/-- **C2, counterexample.** With default filter options (page size 10), a
fetch requested at cursor 5 that fails while the store holds one record
returns the cached set paired with cursor 15 — the advanced next-page cursor
`first + skip` — not the caller's requested cursor 5. -/
theorem c2_counterexample :
    Current.queryFn testConstants foNone true (Except.error "network down")
        [cachedPool] 5 =
      Except.ok { pools := [cachedPool], skip := some 15 } ∧ (15 : Nat) ≠ 5 :=
  ⟨rfl, by decide⟩

/-- **C2, amended.** On fetch failure with a non-empty cached record set the
fetch operation returns exactly the cached set unchanged and raises no error,
but pairs it with the same advanced next-page cursor a successful fetch would
report — the requested page size plus the requested cursor
(`(fetchOptions.first || 0) + (fetchOptions.skip || 0)`) — not the caller's
requested cursor itself; when the cache is empty the fetch failure's error is
propagated to the caller unchanged. -/
theorem c2_cache_fallback_on_failure (C : Constants)
    (fo : Current.PoolFilterOptions) (api : Bool) (e : String)
    (saved : List Pool) (pageParam : Nat) :
    (saved ≠ [] →
      Current.queryFn C fo api (Except.error e) saved pageParam =
        Except.ok
          { pools := saved
            skip := some
              ((Current.getFetchOptions C fo pageParam).first.getD 0 +
                (Current.getFetchOptions C fo pageParam).skip.getD 0) }) ∧
    (saved = [] →
      Current.queryFn C fo api (Except.error e) saved pageParam =
        Except.error e) := by
  constructor
  · intro hne
    have hlen : 0 < saved.length := List.length_pos.mpr hne
    simp only [Current.queryFn, if_pos hlen]
  · intro hempty
    subst hempty
    simp [Current.queryFn]

/-- **C2, witness.** The amended statement at the counterexample's input: the
cached set comes back with the advanced cursor 15, and with an empty cache
the error is rethrown. -/
theorem c2_cache_fallback_on_failure_witness :
    Current.queryFn testConstants foNone true (Except.error "network down")
        [cachedPool] 5 =
      Except.ok
        { pools := [cachedPool]
          skip := some
            ((Current.getFetchOptions testConstants foNone 5).first.getD 0 +
              (Current.getFetchOptions testConstants foNone 5).skip.getD 0) } ∧
    Current.queryFn testConstants foNone true (Except.error "network down")
        [] 5 =
      Except.error "network down" :=
  ⟨(c2_cache_fallback_on_failure testConstants foNone true "network down"
      [cachedPool] 5).1 (by decide),
    (c2_cache_fallback_on_failure testConstants foNone true "network down"
      [] 5).2 rfl⟩

/-- Helper for C3: the coordinator skips a prefix of failing adapters and
returns the first successful adapter's records and cursor. -/
theorem fallbackFetch_first_ok (pre post : List Legacy.Adapter)
    (a : Legacy.Adapter) (rs : List Pool)
    (hpre : ∀ b ∈ pre, ∃ e, b.fetchResult = Except.error e)
    (ha : a.fetchResult = Except.ok rs) :
    Legacy.fallbackFetch (pre ++ a :: post) = Except.ok (rs, a.skip) := by
  induction pre with
  | nil => simp [Legacy.fallbackFetch, ha]
  | cons b t ih =>
    obtain ⟨e, he⟩ := hpre b (List.mem_cons_self b t)
    have hrest := ih (fun x hx => hpre x (List.mem_cons_of_mem b hx))
    simp [Legacy.fallbackFetch, he, hrest]

/-- Helper for C3: when every adapter of the chain fails, the coordinator
raises an aggregate failure. -/
theorem fallbackFetch_all_fail (chain : List Legacy.Adapter)
    (h : ∀ b ∈ chain, ∃ e, b.fetchResult = Except.error e) :
    ∃ es, Legacy.fallbackFetch chain = Except.error es := by
  induction chain with
  | nil => exact ⟨[], rfl⟩
  | cons b t ih =>
    obtain ⟨e, he⟩ := h b (List.mem_cons_self b t)
    obtain ⟨es, hes⟩ := ih (fun x hx => h x (List.mem_cons_of_mem b hx))
    exact ⟨e :: es, by simp [Legacy.fallbackFetch, he, hes]⟩

/-- **C3.** The fallback coordinator attempts adapters strictly in order:
when every adapter before `a` fails and `a` succeeds with records `rs`, the
fetch returns `rs` and exposes `a`'s cursor (not an earlier failed adapter's
cursor), and the query function pairs the records with that cursor; when
every adapter of a chain fails, an aggregate failure is raised. -/
theorem c3_fallback_coordinator (pre post : List Legacy.Adapter)
    (a : Legacy.Adapter) (rs : List Pool)
    (hpre : ∀ b ∈ pre, ∃ e, b.fetchResult = Except.error e)
    (ha : a.fetchResult = Except.ok rs)
    (chain : List Legacy.Adapter)
    (hall : ∀ b ∈ chain, ∃ e, b.fetchResult = Except.error e) :
    Legacy.fallbackFetch (pre ++ a :: post) = Except.ok (rs, a.skip) ∧
    Legacy.queryFn (pre ++ a :: post) =
      Except.ok { pools := rs, skip := Legacy.queryFnSkip a.skip } ∧
    ∃ es, Legacy.fallbackFetch chain = Except.error es := by
  have hok := fallbackFetch_first_ok pre post a rs hpre ha
  refine ⟨hok, ?_, fallbackFetch_all_fail chain hall⟩
  simp [Legacy.queryFn, hok]

/-- A failing primary adapter whose own cursor is `"3"`. -/
def adapterFail : Legacy.Adapter :=
  { fetchResult := Except.error "SourceUnavailable", skip := some "3" }

/-- A succeeding fallback adapter returning two pools with cursor `"5"`. -/
def adapterOk : Legacy.Adapter :=
  { fetchResult := Except.ok [mkPool "p1" 0, mkPool "p2" 0], skip := some "5" }

/-- **C3, witness.** The spec's scenario: with the chain
`[A(fails), B(succeeds, records [p1, p2], cursor "5")]` the fetch returns
`([p1, p2], "5")` — B's cursor, not A's — and the all-fail chain `[A]`
raises an aggregate failure. -/
theorem c3_fallback_coordinator_witness :
    Legacy.fallbackFetch [adapterFail, adapterOk] =
      Except.ok ([mkPool "p1" 0, mkPool "p2" 0], some "5") ∧
    Legacy.queryFn [adapterFail, adapterOk] =
      Except.ok { pools := [mkPool "p1" 0, mkPool "p2" 0]
                  skip := Legacy.queryFnSkip (some "5") } ∧
    ∃ es, Legacy.fallbackFetch [adapterFail] = Except.error es :=
  c3_fallback_coordinator [adapterFail] [] adapterOk
    [mkPool "p1" 0, mkPool "p2" 0]
    (by
      intro b hb
      rw [List.mem_singleton] at hb
      subst hb
      exact ⟨"SourceUnavailable", rfl⟩)
    rfl [adapterFail]
    (by
      intro b hb
      rw [List.mem_singleton] at hb
      subst hb
      exact ⟨"SourceUnavailable", rfl⟩)

/-- **C4.** The pagination controller is a two-state machine.  It starts in
`HasMore` with cursor `none`; a successful page fetch whose provider cursor
is absent or empty yields a response with no `skip`, moving the controller to
`Exhausted`, where no further page is requested; a successful fetch with a
non-empty provider cursor keeps it in `HasMore` with that new cursor. -/
theorem c4_pagination_two_state_machine
    (c : Option String) (pools : List Pool) (providerSkip : Option String)
    (hend : providerSkip = none ∨ providerSkip = some "")
    (s : String) (hs : s ≠ "") :
    Legacy.initialPageState = Legacy.PageState.HasMore none ∧
    Legacy.controllerStep (Legacy.PageState.HasMore c)
        { pools := pools, skip := Legacy.queryFnSkip providerSkip } =
      Legacy.PageState.Exhausted ∧
    Legacy.controllerStep Legacy.PageState.Exhausted
        { pools := pools, skip := Legacy.queryFnSkip providerSkip } =
      Legacy.PageState.Exhausted ∧
    Legacy.controllerStep (Legacy.PageState.HasMore c)
        { pools := pools, skip := Legacy.queryFnSkip (some s) } =
      Legacy.PageState.HasMore (some s) := by
  refine ⟨rfl, ?_, rfl, ?_⟩
  · rcases hend with h | h <;> subst h <;> rfl
  · simp [Legacy.queryFnSkip, Legacy.controllerStep, Legacy.getNextPageParam,
      hs]

/-- **C4, witness.** The machine at concrete inputs: an empty provider cursor
exhausts pagination, the cursor `"40"` keeps it in `HasMore "40"`. -/
theorem c4_pagination_two_state_machine_witness :
    Legacy.initialPageState = Legacy.PageState.HasMore none ∧
    Legacy.controllerStep (Legacy.PageState.HasMore none)
        { pools := [], skip := Legacy.queryFnSkip (some "") } =
      Legacy.PageState.Exhausted ∧
    Legacy.controllerStep Legacy.PageState.Exhausted
        { pools := [], skip := Legacy.queryFnSkip (some "") } =
      Legacy.PageState.Exhausted ∧
    Legacy.controllerStep (Legacy.PageState.HasMore none)
        { pools := [], skip := Legacy.queryFnSkip (some "40") } =
      Legacy.PageState.HasMore (some "40") :=
  c4_pagination_two_state_machine none [] (some "") (Or.inr rfl) "40"
    (by decide)

/-- **C7.** Restarting the paginated sequence (the filter-change watcher
emptying the store, the framework refetching from the default page param)
after any number of fetch-next steps yields the initial state: cursor `none`
and an empty record accumulator; restarting is idempotent; and the reset is
not vacuous — a successful fetch-next from the initial state accumulates the
fetched page in the store. -/
theorem c7_restart_resets_and_idempotent (C : Constants)
    (fo : Current.PoolFilterOptions) (api : Bool)
    (outcomes : List (Except String (List Pool))) (s : Current.QueryState)
    (page : List Pool) :
    Current.restart
        (outcomes.foldl
          (fun st r => Current.fetchNext C fo api r st) Current.initState) =
      Current.initState ∧
    Current.restart (Current.restart s) = Current.restart s ∧
    (Current.restart s).cursor = none ∧
    (Current.restart s).store = [] ∧
    (Current.fetchNext C fo true (Except.ok page) Current.initState).store =
      page := by
  refine ⟨rfl, rfl, rfl, rfl, ?_⟩
  simp [Current.fetchNext, Current.queryFn, Current.initState]

/-- Filter options selecting the `volume` sort field. -/
def foVolume : Current.PoolFilterOptions :=
  { foNone with sortField := some "volume" }

/-- **C5.** The client-side sort: with sort field `totalLiquidity` the list
is returned unchanged; with `apr` it is a permutation of the input ordered by
`apr.max` descending; with `volume` it is a permutation ordered by
`totalSwapVolume` descending, the comparison being exact decimal arithmetic
— on the spec's scenario `[10, 10^18, 5]` it yields `[10^18, 10, 5]`, and it
separates `10^18 + 1` from `10^18` without precision loss. -/
theorem c5_custom_sort_fields (fo : Current.PoolFilterOptions)
    (pools : List Pool) :
    Current.customSort { fo with sortField := some "totalLiquidity" } pools =
      pools ∧
    (Current.customSort { fo with sortField := some "apr" } pools).Sorted
      Current.aprOrder ∧
    (Current.customSort { fo with sortField := some "apr" } pools).Perm
      pools ∧
    (Current.customSort { fo with sortField := some "volume" } pools).Sorted
      Current.volumeOrder ∧
    (Current.customSort { fo with sortField := some "volume" } pools).Perm
      pools ∧
    Current.customSort foVolume
        [mkPool "a" 10, mkPool "b" (1000000000000000000 : ℚ), mkPool "c" 5] =
      [mkPool "b" (1000000000000000000 : ℚ), mkPool "a" 10, mkPool "c" 5] ∧
    Current.customSort foVolume
        [mkPool "a" (1000000000000000000 : ℚ), mkPool "b" (1000000000000000001 : ℚ)] =
      [mkPool "b" (1000000000000000001 : ℚ), mkPool "a" (1000000000000000000 : ℚ)] := by
  have hapr :
      Current.customSort { fo with sortField := some "apr" } pools =
        pools.insertionSort Current.aprOrder := by
    simp [Current.customSort, jsOrStr]
  have hvol :
      Current.customSort { fo with sortField := some "volume" } pools =
        pools.insertionSort Current.volumeOrder := by
    simp [Current.customSort, jsOrStr]
  refine ⟨by simp [Current.customSort, jsOrStr], ?_, ?_, ?_, ?_, ?_, ?_⟩
  · rw [hapr]
    exact List.sorted_insertionSort Current.aprOrder pools
  · rw [hapr]
    exact List.perm_insertionSort Current.aprOrder pools
  · rw [hvol]
    exact List.sorted_insertionSort Current.volumeOrder pools
  · rw [hvol]
    exact List.perm_insertionSort Current.volumeOrder pools
  · decide
  · decide

/-- Helper for C9: with an empty price table every token contributes price 0,
so the balance-times-price accumulation stays at its initial value. -/
theorem foldl_price_empty (l : List PoolToken) (acc : ℚ) :
    l.foldl (fun acc t => acc + t.balance * Decorator.priceOf [] t.address)
      acc = acc := by
  induction l generalizing acc with
  | nil => rfl
  | cons t ts ih => simp [Decorator.priceOf, ih]

/-- **C9.** The record decorator is a pure, deterministic function of raw
records, gauge list, price table, display currency and token metadata: two
invocations with equal inputs produce equal decorated records.  Absent
auxiliary inputs degrade individual derived fields rather than failing the
batch: the output always has one decorated record per input record, an empty
price table makes every derived `totalLiquidity` equal 0, and an empty gauge
list leaves every derived `apr` omitted. -/
theorem c9_decorator_pure_and_degrading (pools p₂ : List Pool)
    (gauges g₂ : List Decorator.Gauge) (prices pr₂ : Decorator.PriceTable)
    (cur c₂ : String) (meta m₂ : Decorator.TokenMeta)
    (hp : pools = p₂) (hg : gauges = g₂) (hpr : prices = pr₂)
    (hc : cur = c₂) (hm : meta = m₂) :
    Decorator.decorate pools gauges prices cur meta =
      Decorator.decorate p₂ g₂ pr₂ c₂ m₂ ∧
    (Decorator.decorate pools gauges prices cur meta).length = pools.length ∧
    (Decorator.decorate pools gauges [] cur meta).map Pool.totalLiquidity =
      pools.map (fun _ => (0 : ℚ)) ∧
    (Decorator.decorate pools [] prices cur meta).map Pool.aprMax =
      pools.map (fun _ => (none : Option ℚ)) := by
  subst hp hg hpr hc hm
  refine ⟨rfl, ?_, ?_, ?_⟩
  · simp [Decorator.decorate]
  · simp only [Decorator.decorate, List.map_map]
    induction pools with
    | nil => rfl
    | cons p ps ih =>
      simp only [List.map_cons, Function.comp_apply, ih]
      simp [foldl_price_empty]
  · simp only [Decorator.decorate, List.map_map]
    induction pools with
    | nil => rfl
    | cons p ps ih =>
      simp only [List.map_cons, Function.comp_apply, ih]
      simp

/-- A pool holding one token with a non-zero balance. -/
def poolWithToken : Pool :=
  { mkPool "0xp" 0 with tokens := [{ address := "0xt", balance := 3 }] }

/-- **C9, witness.** The decorator at concrete inputs: equal inputs give
equal outputs, one record in yields one record out, and with no prices and
no gauges the derived liquidity is 0 and the apr is omitted. -/
theorem c9_decorator_pure_and_degrading_witness :
    Decorator.decorate [poolWithToken] [] [] "USD" [] =
      Decorator.decorate [poolWithToken] [] [] "USD" [] ∧
    (Decorator.decorate [poolWithToken] [] [] "USD" []).length = 1 ∧
    (Decorator.decorate [poolWithToken] [] [] "USD" []).map
      Pool.totalLiquidity = [0] ∧
    (Decorator.decorate [poolWithToken] [] [] "USD" []).map Pool.aprMax =
      [none] := by
  have h := c9_decorator_pure_and_degrading [poolWithToken] [poolWithToken]
    [] [] [] [] "USD" "USD" [] [] rfl rfl rfl rfl rfl
  exact ⟨h.1, h.2.1, by simpa using h.2.2.1, by simpa using h.2.2.2⟩

end PoolsQuery
